import Mathlib

/-!
Shallow embedding of the geo-resolution core of `geodb.py`
(`GeoDatabase_Base`, `CountryLevel_GeoDB`, `ZIPLevel_GeoDB`, `ZIP_GeoIPDB`).

Python values, sqlite cells and result dictionaries are embedded as plain
inductive types; the sqlite table behind each resolver variant is a column
list plus rows of cells, and a SELECT with a WHERE clause is embedded as a
filter over those rows.  Python `None` results and raised exceptions are
separated from ordinary returns by the `PyOut` type.  Floating point values
are abstracted as exact rationals: no claim in this development depends on
rounding, only on values being carried, compared and formatted
deterministically.
-/

namespace GeoDB

/-- Declared Python column type, a value of `self.types` (`int`, `float`, `str`). -/
inductive PyType where
  | tInt
  | tFloat
  | tStr
deriving DecidableEq, Repr

/-- Raw sqlite cell value as handed to the row factory: TEXT, INTEGER, REAL or NULL.
REAL is abstracted as an exact rational. -/
inductive Cell where
  | s : String → Cell
  | i : Int → Cell
  | r : Rat → Cell
  | null : Cell
deriving DecidableEq, Repr

/-- Python value stored in a result dictionary after type coercion. -/
inductive PyVal where
  | s : String → PyVal
  | i : Int → PyVal
  | f : Rat → PyVal
  | none : PyVal
deriving DecidableEq, Repr

/-- Atomic Python argument (the query APIs are called with strings, integers or
flat lists of those; nested containers do not occur in this program). -/
inductive PyAtom where
  | s : String → PyAtom
  | i : Int → PyAtom
deriving DecidableEq, Repr

/-- Python argument as passed positionally to `get_geodata` / `_get_geodata`:
an atom, a list of atoms, or a tuple of atoms (tuples arise from cache-key
normalization of lists). -/
inductive PyObj where
  | atom : PyAtom → PyObj
  | list : List PyAtom → PyObj
  | tup : List PyAtom → PyObj
deriving DecidableEq, Repr

/-- Digit list to the natural number it denotes in base 10. -/
def digitsToNat (l : List Char) : Nat :=
  l.foldl (fun a c => a * 10 + (c.toNat - 48)) 0

/-- True when the character list is a nonempty run of decimal digits. -/
def isDigits (l : List Char) : Bool :=
  !l.isEmpty && l.all Char.isDigit

/-- Python `int(string)` on a character list: optional sign followed by digits;
`Option.none` models the `ValueError` raised on anything else. -/
def parseIntChars? : List Char → Option Int
  | '-' :: rest => if isDigits rest then some (-(digitsToNat rest : Int)) else Option.none
  | '+' :: rest => if isDigits rest then some (digitsToNat rest : Int) else Option.none
  | l => if isDigits l then some (digitsToNat l : Int) else Option.none

/-- Python `int(string)`. -/
def parseInt? (s : String) : Option Int :=
  parseIntChars? s.toList

/-- Exact value of the decimal number with integer part `ip` and fraction part `fp`. -/
def decimalVal (ip fp : List Char) : Rat :=
  (digitsToNat ip : Rat) + (digitsToNat fp : Rat) / ((10 : Rat) ^ fp.length)

/-- Splits a character list on a separator character, keeping empty chunks,
like Python `str.split(sep)`. -/
def splitChar (c : Char) : List Char → List (List Char)
  | [] => [[]]
  | x :: xs =>
    let r := splitChar c xs
    if x = c then [] :: r
    else
      match r with
      | g :: gs => (x :: g) :: gs
      | [] => [[x]]

/-- Python `float(string)` without sign: digits with an optional decimal point
on either side.  The model covers the plain decimal forms that occur in the
datasets; exponent and inf/nan spellings are not modelled.  `Option.none`
models the raised `ValueError`. -/
def parseUnsignedFloat? (l : List Char) : Option Rat :=
  match splitChar '.' l with
  | [a] => if isDigits a then some (digitsToNat a : Rat) else Option.none
  | [a, b] =>
    if isDigits a && (b.isEmpty || isDigits b) then some (decimalVal a b)
    else if a.isEmpty && isDigits b then some (decimalVal [] b)
    else Option.none
  | _ => Option.none

/-- Python `float(string)`: optional sign then an unsigned decimal. -/
def parseFloat? (s : String) : Option Rat :=
  match s.toList with
  | '-' :: rest => (parseUnsignedFloat? rest).map (fun q => -q)
  | '+' :: rest => parseUnsignedFloat? rest
  | l => parseUnsignedFloat? l

/-- Deterministic stand-in for the textual rendering of a Python float
(`'{}'.format(x)`).  The exact digit string of CPython float repr is
immaterial to every claim; only determinism of the rendering matters. -/
def floatRepr (q : Rat) : String :=
  toString q

/-- Python `int(x)` truncation of a float toward zero. -/
def truncRat (q : Rat) : Int :=
  if q < 0 then ⌈q⌉ else ⌊q⌋

/-- Python `str(x)` on a raw cell (`str(None)` is the string `None`). -/
def cellStr : Cell → String
  | .s str => str
  | .i n => toString n
  | .r q => floatRepr q
  | .null => "None"

/-- One coercion step `f(row[idx])` of `_dict_factory` for declared type `f`:
`Option.none` models the coercion raising (`int`/`float` of a non-numeric
string, or of `None`). -/
def coerce : PyType → Cell → Option PyVal
  | .tInt, .i n => some (.i n)
  | .tInt, .r q => some (.i (truncRat q))
  | .tInt, .s str => (parseInt? str).map PyVal.i
  | .tInt, .null => Option.none
  | .tFloat, .i n => some (.f (n : Rat))
  | .tFloat, .r q => some (.f q)
  | .tFloat, .s str => (parseFloat? str).map PyVal.f
  | .tFloat, .null => Option.none
  | .tStr, c => some (.s (cellStr c))

/-- Python `str(x)` / `'{}'.format(x)` on a stored value. -/
def pyValStr : PyVal → String
  | .s str => str
  | .i n => toString n
  | .f q => floatRepr q
  | .none => "None"

/-- Python `repr` of an atom (strings are quoted), used inside container reprs. -/
def pyAtomRepr : PyAtom → String
  | .s str => "'" ++ str ++ "'"
  | .i n => toString n

/-- Python `str(x)` / `'{}'.format(x)` on an atom. -/
def pyAtomStr : PyAtom → String
  | .s str => str
  | .i n => toString n

/-- Python `str(x)` / `'{}'.format(x)` on an argument object. -/
def pyObjStr : PyObj → String
  | .atom a => pyAtomStr a
  | .list l => "[" ++ String.intercalate ", " (l.map pyAtomRepr) ++ "]"
  | .tup l => "(" ++ String.intercalate ", " (l.map pyAtomRepr) ++ ")"

/-- The string `'{},{}'.format(lat, lon)` built at lines 243, 358 and 489 of
`geodb.py`. -/
def coordStr (lat lon : PyVal) : String :=
  pyValStr lat ++ "," ++ pyValStr lon

/-- The string `'{},{}'.format(repr_lat, repr_lon)` built from an aggregated
representative point. -/
def aggStr (p : Rat × Rat) : String :=
  floatRepr p.1 ++ "," ++ floatRepr p.2

/-- Result dictionary: a Python dict from field name to value, embedded as an
association list in insertion order. -/
abbrev PyDict := List (String × PyVal)

/-- Python `d[k] = v`: update in place if the key exists, append otherwise. -/
def dictSet : PyDict → String → PyVal → PyDict
  | [], k, v => [(k, v)]
  | p :: rest, k, v => if p.1 = k then (k, v) :: rest else p :: dictSet rest k v

/-- Python `d.get(k)` / `d[k]` lookup. -/
def dictGet? (d : PyDict) (k : String) : Option PyVal :=
  (d.find? (fun p => p.1 = k)).map (·.2)

/-- Python `del d[k]`.  Dict keys are unique by construction, so removing every
binding of `k` coincides with removing the single one. -/
def dictDel (d : PyDict) (k : String) : PyDict :=
  d.filter (fun p => p.1 ≠ k)

/-- Python `k in d`. -/
def dictHas (d : PyDict) (k : String) : Bool :=
  d.any (fun p => p.1 = k)

/-- Outcome of a Python call: a returned value, a returned `None`, or a raised
exception (named by its class). -/
inductive PyOut (α : Type) where
  | val : α → PyOut α
  | noneV : PyOut α
  | exn : String → PyOut α
deriving DecidableEq, Repr

/-- Looks up the declared type of a column in `self.types`. -/
def lookupType (types : List (String × PyType)) (k : String) : Option PyType :=
  (types.find? (fun p => p.1 = k)).map (·.2)

/-- Models `GeoDatabase_Base._dict_factory` on one fetched row, given as the
cursor description zipped with the raw cells: the `index` column is skipped,
`int`/`float` coercions that raise drop the field (`except: continue`) while
the row itself is kept, `str` coercion never raises, and a column missing
from `self.types` raises `KeyError` (only the numeric coercion is guarded). -/
def dict_factory (types : List (String × PyType)) : List (String × Cell) → PyDict → Except String PyDict
  | [], d => .ok d
  | (k, c) :: rest, d =>
    if k = "index" then dict_factory types rest d
    else
      match lookupType types k with
      | Option.none => .error "KeyError"
      | some .tStr => dict_factory types rest (dictSet d k (.s (cellStr c)))
      | some .tInt =>
        match coerce .tInt c with
        | some v => dict_factory types rest (dictSet d k v)
        | Option.none => dict_factory types rest d
      | some .tFloat =>
        match coerce .tFloat c with
        | some v => dict_factory types rest (dictSet d k v)
        | Option.none => dict_factory types rest d

/-- One variant's sqlite table: the column list of `SELECT *` (for the
pandas-built stores this includes the `index` column written by `to_sql`)
and the stored rows, each aligned with the columns. -/
structure Table where
  cols : List String
  rows : List (List Cell)
deriving DecidableEq, Repr

/-- The `AND`/`OR` combinator joining several field predicates (`multi_op`). -/
inductive Combinator where
  | and
  | or
deriving DecidableEq, Repr

/-- Cell of row `r` in the column named `c`, if the table has such a column. -/
def cellAt (cols : List String) (r : List Cell) (c : String) : Option Cell :=
  (cols.findIdx? (fun x => x = c)).map (fun j => r.getD j .null)

/-- Result of the sqlite comparison `column = "{value}"` between a stored cell
and the text literal interpolated for Python value `v`, after column-affinity
conversion: an INTEGER or REAL cell compares numerically when the literal
parses as a number, a TEXT cell compares as text, NULL matches nothing.  For
an integer Python value the format-then-reparse roundtrip is folded into a
direct integer comparison. -/
def cellMatchesVal (c : Cell) (v : PyObj) : Bool :=
  match c, v with
  | .i n, .atom (.i m) => n = m
  | .i n, _ => ((parseInt? (pyObjStr v)).map (fun m => decide (m = n))).getD false
  | .r q, .atom (.i m) => q = (m : Rat)
  | .r q, _ => ((parseFloat? (pyObjStr v)).map (fun p => decide (p = q))).getD false
  | .s str, _ => str = pyObjStr v
  | .null, _ => false

/-- One `col = "{value}"` condition on a row.  When the double-quoted column
name is not a column of the table sqlite falls back to treating it as a
string literal, so the condition compares the two literals. -/
def evalCond (cols : List String) (r : List Cell) (c : String) (v : PyObj) : Bool :=
  match cellAt cols r c with
  | some cell => cellMatchesVal cell v
  | Option.none => pyObjStr v = c

/-- The WHERE clause of the multi-field branch: conditions joined by the
combinator. -/
def condsMatch (mop : Combinator) (cols : List String) (r : List Cell)
    (conds : List (String × PyObj)) : Bool :=
  match mop with
  | .and => conds.all (fun p => evalCond cols r p.1 p.2)
  | .or => conds.any (fun p => evalCond cols r p.1 p.2)

/-- Runs `_dict_factory` over every fetched row, as `cursor.fetchall()` does
with the installed row factory; an exception in the factory propagates. -/
def fetchallDicts (types : List (String × PyType)) (cols : List String) :
    List (List Cell) → Except String (List PyDict)
  | [] => .ok []
  | r :: rest =>
    match dict_factory types (cols.zip r) [] with
    | .ok d =>
      match fetchallDicts types cols rest with
      | .ok ds => .ok (d :: ds)
      | .error e => .error e
    | .error e => .error e

/-- Collects `(r['latitude'], r['longitude'])` over the result rows for the
aggregator; a row missing either field raises `KeyError`. -/
def collectPoints : List PyDict → Except String (List (PyVal × PyVal))
  | [] => .ok []
  | d :: rest =>
    match dictGet? d "latitude", dictGet? d "longitude" with
    | some a, some b =>
      match collectPoints rest with
      | .ok ps => .ok ((a, b) :: ps)
      | .error e => .error e
    | _, _ => .error "KeyError"

/-- Shared core of the result shaping (lines 242-249, 357-364, 488-497 of
`geodb.py`): take the first row's dict, synthesize `location` from its
coordinate, set `representative_point` equal to `location`, and when more
than one row matched recompute `representative_point` through the aggregator
`agg` (which abstracts `MultiPoint(...).representative_point().coords[0]` of
the external shapely library). -/
def shapeCore (agg : List (PyVal × PyVal) → Rat × Rat) (d0 : PyDict) (rest : List PyDict) :
    Except String PyDict :=
  match dictGet? d0 "latitude", dictGet? d0 "longitude" with
  | some lat, some lon =>
    let d2 := dictSet (dictSet d0 "location" (.s (coordStr lat lon)))
      "representative_point" (.s (coordStr lat lon))
    if rest.isEmpty then .ok d2
    else
      match collectPoints (d0 :: rest) with
      | .ok pts => .ok (dictSet d2 "representative_point" (.s (aggStr (agg pts))))
      | .error e => .error e
  | _, _ => .error "KeyError"

/-- Result shaping of `CountryLevel_GeoDB._get_geodata` (lines 239-254):
shared shaping, then unconditional `del` of the raw coordinate columns and a
guarded `del` of the `index` column. -/
def countryShape (agg : List (PyVal × PyVal) → Rat × Rat) (results : List PyDict) : PyOut PyDict :=
  match results with
  | [] => .noneV
  | d0 :: rest =>
    match shapeCore agg d0 rest with
    | .error e => .exn e
    | .ok d3 =>
      let d4 := dictDel (dictDel d3 "latitude") "longitude"
      .val (if dictHas d4 "index" then dictDel d4 "index" else d4)

/-- Result shaping of `ZIPLevel_GeoDB._get_geodata` (lines 353-370): shared
shaping, unconditional `del` of the raw coordinate columns, then
`d['country_name'] = None`. -/
def ziplevelShape (agg : List (PyVal × PyVal) → Rat × Rat) (results : List PyDict) : PyOut PyDict :=
  match results with
  | [] => .noneV
  | d0 :: rest =>
    match shapeCore agg d0 rest with
    | .error e => .exn e
    | .ok d3 =>
      let d4 := dictDel (dictDel d3 "latitude") "longitude"
      .val (dictSet d4 "country_name" PyVal.none)

/-- Result shaping of `ZIP_GeoIPDB._get_geodata` (lines 484-503): shared
shaping, then a guarded `del` of every internal field in
`['latitude', 'longitude', 'ip_from', 'ip_to', 'index']`. -/
def zipShape (agg : List (PyVal × PyVal) → Rat × Rat) (results : List PyDict) : PyOut PyDict :=
  match results with
  | [] => .noneV
  | d0 :: rest =>
    match shapeCore agg d0 rest with
    | .error e => .exn e
    | .ok d3 =>
      .val (dictDel (dictDel (dictDel (dictDel (dictDel d3 "latitude") "longitude")
        "ip_from") "ip_to") "index")

/-- Executes `SELECT * FROM t WHERE pred` and shapes the fetched rows with the
given shaper; an exception raised by the row factory propagates. -/
def runQuery (types : List (String × PyType)) (t : Table)
    (shaper : List PyDict → PyOut PyDict) (pred : List Cell → Bool) : PyOut PyDict :=
  match fetchallDicts types t.cols (t.rows.filter pred) with
  | .ok ds => shaper ds
  | .error e => .exn e

/-- Shapes a list of raw rows like the tail of the IP lookup: fetch every row
through the row factory, then apply the ZIP shaping. -/
def zipFetchShape (types : List (String × PyType)) (cols : List String)
    (agg : List (PyVal × PyVal) → Rat × Rat) (rows : List (List Cell)) : PyOut PyDict :=
  match fetchallDicts types cols rows with
  | .ok ds => zipShape agg ds
  | .error e => .exn e

/-- One step of CPython `bisect.bisect_right`: while `lo < hi` take
`mid = (lo + hi) / 2` and move `hi` down to `mid` when `v < a[mid]`, else move
`lo` up to `mid + 1`.  The structural fuel bounds the interval width, which
strictly decreases, so a fuel of `a.length` never runs out. -/
def bisectRightAux (a : List Int) (v : Int) : Nat → Nat → Nat → Nat
  | 0, lo, _ => lo
  | fuel + 1, lo, hi =>
    if lo < hi then
      if v < a.getD ((lo + hi) / 2) 0 then bisectRightAux a v fuel lo ((lo + hi) / 2)
      else bisectRightAux a v fuel ((lo + hi) / 2 + 1) hi
    else lo

/-- CPython `bisect.bisect_right(a, v)`: insertion position after any run of
elements equal to `v`. -/
def bisectRight (a : List Int) (v : Int) : Nat :=
  bisectRightAux a v a.length 0 a.length

/-- Integer value of the `ip_to` cell of a row, used by the oracles below. -/
def rowIpTo (cols : List String) (r : List Cell) : Option Int :=
  match cellAt cols r "ip_to" with
  | some (.i n) => some n
  | _ => Option.none

/-- Linear-scan oracle: the first record whose range upper bound is strictly
greater than the query value (the search the code's `bisect_right` performs). -/
def linearScanStrictGt (t : Table) (v : Int) : Option (List Cell) :=
  t.rows.find? (fun r => ((rowIpTo t.cols r).map (fun n => decide (v < n))).getD false)

/-- Linear-scan oracle over the inclusive ranges themselves: the first record
with `ip_from ≤ v ≤ ip_to`. -/
def linearScanInclusive (t : Table) (v : Int) : Option (List Cell) :=
  t.rows.find? (fun r =>
    match cellAt t.cols r "ip_from", rowIpTo t.cols r with
    | some (.i lo), some hi => decide (lo ≤ v) && decide (v ≤ hi)
    | _, _ => false)

/-- The `CountryLevel_GeoDB.types` schema. -/
def countryTypes : List (String × PyType) :=
  [("country_code", .tStr), ("country_name", .tStr), ("latitude", .tFloat),
   ("longitude", .tFloat)]

/-- The `ZIPLevel_GeoDB.names` schema. -/
def zipLevelNames : List String :=
  ["country_code", "zip_code", "place_name", "admin_name1", "admin_code1",
   "admin_name2", "admin_code2", "admin_name3", "admin_code3", "latitude",
   "longitude", "accuracy"]

/-- The `ZIPLevel_GeoDB.types` schema. -/
def zipLevelTypes : List (String × PyType) :=
  [("country_code", .tStr), ("zip_code", .tStr), ("place_name", .tStr),
   ("admin_name1", .tStr), ("admin_code1", .tStr), ("admin_name2", .tStr),
   ("admin_code2", .tStr), ("admin_name3", .tStr), ("admin_code3", .tStr),
   ("latitude", .tFloat), ("longitude", .tFloat), ("accuracy", .tFloat)]

/-- The `ZIP_GeoIPDB.types` schema. -/
def zipIPTypes : List (String × PyType) :=
  [("ip_from", .tInt), ("ip_to", .tInt), ("country_code", .tStr),
   ("country_name", .tStr), ("region_name", .tStr), ("place_name", .tStr),
   ("latitude", .tFloat), ("longitude", .tFloat), ("zip_code", .tStr)]

/-- Models `CountryLevel_GeoDB._get_geodata` (lines 215-254).  `pending` is
the state of the shared cursor before the call: when neither dispatch branch
fires (mismatched list lengths, or a column argument that is neither a string
nor a list) no statement is executed and `fetchall` drains whatever the cursor
still holds, which is empty whenever the previous call consumed its results.
The returned flag records whether a statement was executed against the store.
An unquoted unknown column in the single-field branch raises
`OperationalError`; an empty multi-field list builds a syntactically invalid
WHERE clause, which also raises. -/
def CountryLevel_getGeodata (types : List (String × PyType)) (t : Table)
    (pending : List (List Cell)) (agg : List (PyVal × PyVal) → Rat × Rat)
    (column value : PyObj) (mop : Combinator) : Bool × PyOut PyDict :=
  match column, value with
  | .atom (.s c), v =>
    if (t.cols.findIdx? (fun x => x = c)).isSome then
      (true, runQuery types t (countryShape agg) (fun r => evalCond t.cols r c v))
    else (true, .exn "OperationalError")
  | .list cs, .list vs =>
    if cs.length = vs.length then
      if cs.isEmpty then (true, .exn "OperationalError")
      else
        let conds := (cs.zip vs).map (fun p => (pyAtomStr p.1, PyObj.atom p.2))
        (true, runQuery types t (countryShape agg) (fun r => condsMatch mop t.cols r conds))
    else
      (false, match fetchallDicts types t.cols pending with
              | .ok ds => countryShape agg ds
              | .error e => .exn e)
  | _, _ =>
    (false, match fetchallDicts types t.cols pending with
            | .ok ds => countryShape agg ds
            | .error e => .exn e)

/-- One token condition of an FTS5 MATCH expression: `column:value` or a bare
unqualified value (both lowercased by the caller). -/
inductive FTSCond where
  | qualified : String → String → FTSCond
  | unqualified : String → FTSCond
deriving DecidableEq, Repr

/-- Lowercases a string character by character (Python `str.lower` on ASCII). -/
def lowerStr (s : String) : String :=
  String.mk (s.toList.map Char.toLower)

/-- Python `x.lower()` on an atom: raises `AttributeError` on an integer. -/
def atomLower : PyAtom → Except String String
  | .s str => .ok (lowerStr str)
  | .i _ => .error "AttributeError"

/-- Builds the per-field token conditions of the multi-field FTS branch,
propagating the `AttributeError` of `.lower()` on a non-string element. -/
def ftsConds : List (PyAtom × PyAtom) → Except String (List FTSCond)
  | [] => .ok []
  | (c, v) :: rest =>
    match atomLower c, atomLower v with
    | .ok lc, .ok lv =>
      match ftsConds rest with
      | .ok more => .ok (FTSCond.qualified lc lv :: more)
      | .error e => .error e
    | .error e, _ => .error e
    | _, .error e => .error e

/-- Models `ZIPLevel_GeoDB._get_geodata` (lines 320-370).  The FTS5 MATCH
evaluation lives inside sqlite, external to this program, so it is abstracted
as the `engine` parameter mapping a token expression and combinator to the
matching raw rows.  The returned flag records whether a MATCH statement was
executed. -/
def ZIPLevel_getGeodata (types : List (String × PyType)) (names : List String)
    (engine : List FTSCond → Combinator → List (List Cell)) (cols : List String)
    (agg : List (PyVal × PyVal) → Rat × Rat)
    (column value : PyObj) (mop : Combinator) : Bool × PyOut PyDict :=
  match column, value with
  | .atom (.s c), .atom (.s v) =>
    let conds :=
      if c ∈ names then [FTSCond.qualified (lowerStr c) (lowerStr v)]
      else [FTSCond.unqualified (lowerStr v)]
    (true, match fetchallDicts types cols (engine conds mop) with
           | .ok ds => ziplevelShape agg ds
           | .error e => .exn e)
  | .list cs, .list vs =>
    if cs.length = vs.length then
      if cs.isEmpty then (true, .exn "OperationalError")
      else
        match ftsConds (cs.zip vs) with
        | .error e => (false, .exn e)
        | .ok conds =>
          (true, match fetchallDicts types cols (engine conds mop) with
                 | .ok ds => ziplevelShape agg ds
                 | .error e => .exn e)
    else (false, .noneV)
  | _, _ => (false, .noneV)

/-- Modelled from the spec: `ip2int` comes from the `net_utils` module, which
is not among the sources; per the spec it converts a dotted IPv4 address
string into its canonical 32-bit unsigned integer form and raises on
malformed input. -/
def ip2int (s : String) : Except String Int :=
  match (splitChar '.' s.toList).map parseIntChars? with
  | [some a, some b, some c, some d] =>
    if 0 ≤ a && a ≤ 255 && 0 ≤ b && b ≤ 255 && 0 ≤ c && c ≤ 255 && 0 ≤ d && d ≤ 255 then
      .ok (((a * 256 + b) * 256 + c) * 256 + d)
    else .error "ValueError"
  | _ => .error "ValueError"

/-- The IP branch of `ZIP_GeoIPDB._get_geodata` after conversion (lines
469-484): `bisect_right` into the cached `ip_to` array, then an unguarded
index into that array — one position past the end raises `IndexError` — and
finally `SELECT * WHERE ip_to = "{...}"` shaped by the ZIP shaper. -/
def zipIpLookup (types : List (String × PyType)) (t : Table) (ipl : List Int)
    (agg : List (PyVal × PyVal) → Rat × Rat) (n : Int) : Bool × PyOut PyDict :=
  let idx := bisectRight ipl n
  match ipl[idx]? with
  | Option.none => (false, .exn "IndexError")
  | some ipTo =>
    (true, zipFetchShape types t.cols agg
      (t.rows.filter (fun r => evalCond t.cols r "ip_to" (.atom (.i ipTo)))))

/-- Models `ZIP_GeoIPDB._get_geodata` (lines 447-503).  With `column == 'ip'`
and `str_ip` set, `ip2int(str(value))` is guarded: a conversion error is
caught and the call returns `None`; with `str_ip` unset a non-integer value
reaches the bisect comparison and raises `TypeError` unguarded.  Other
columns follow the exact-match dispatch of the country variant but with the
ZIP shaping, and the mismatched/invalid dispatch falls into an explicit
`return None`. -/
def ZIP_getGeodata (types : List (String × PyType)) (t : Table) (ipl : List Int)
    (agg : List (PyVal × PyVal) → Rat × Rat) (column value : PyObj)
    (mop : Combinator) (str_ip : Bool) : Bool × PyOut PyDict :=
  if column = PyObj.atom (.s "ip") then
    if str_ip then
      match ip2int (pyObjStr value) with
      | .error _ => (false, .noneV)
      | .ok n => zipIpLookup types t ipl agg n
    else
      match value with
      | .atom (.i n) => zipIpLookup types t ipl agg n
      | _ => (false, .exn "TypeError")
  else
    match column, value with
    | .atom (.s c), v =>
      if (t.cols.findIdx? (fun x => x = c)).isSome then
        (true, runQuery types t (zipShape agg) (fun r => evalCond t.cols r c v))
      else (true, .exn "OperationalError")
    | .list cs, .list vs =>
      if cs.length = vs.length then
        if cs.isEmpty then (true, .exn "OperationalError")
        else
          let conds := (cs.zip vs).map (fun p => (pyAtomStr p.1, PyObj.atom p.2))
          (true, runQuery types t (zipShape agg) (fun r => condsMatch mop t.cols r conds))
      else (false, .noneV)
    | _, _ => (false, .noneV)

/-- Construction error of `ZIPLevel_GeoDB.__init__`: the `sys.exit(1)` taken
when the sqlite build lacks the FTS5 extension. -/
inductive InitError where
  | capabilityUnavailable
deriving DecidableEq, Repr

/-- Configuration a successfully constructed `ZIPLevel_GeoDB` proceeds to load
with. -/
structure ZIPLevelConfig where
  names : List String
  types : List (String × PyType)
deriving DecidableEq, Repr

/-- Models `ZIPLevel_GeoDB.__init__` up to delegation to the base loader
(lines 260-270): default the schema arguments, then gate on
`check_FTS5_support()` — when the capability probe fails the constructor
halts via `sys.exit(1)`, modelled as `Except.error`.  Database loading by the
base initializer is outside this model. -/
def ZIPLevel_init (fts5Supported : Bool) (names : List String)
    (types : List (String × PyType)) : Except InitError ZIPLevelConfig :=
  let names1 := if names.isEmpty then zipLevelNames else names
  let types1 := if types.isEmpty then zipLevelTypes else types
  if fts5Supported then .ok ⟨names1, types1⟩
  else .error .capabilityUnavailable

/-- Converts one positional argument for the cache key: `tuple(arg) if
type(arg) is list else arg`. -/
def normalizeArg : PyObj → PyObj
  | .list l => .tup l
  | x => x

/-- The cache key built by `get_geodata` (lines 156-157): positional args with
lists converted to tuples, followed by the keyword argument values. -/
def makeKey (args : List PyObj) (kwargsVals : List PyObj) : List PyObj :=
  args.map normalizeArg ++ kwargsVals

/-- The per-resolver result cache `self._results_cache`. -/
abbrev Cache := List (List PyObj × PyDict)

/-- Models `_get_result_from_cache`: `self._results_cache.get(key, False)`,
with the `False` miss sentinel embedded as `Option.none`. -/
def cacheGet? (c : Cache) (k : List PyObj) : Option PyDict :=
  (c.find? (fun p => p.1 = k)).map (·.2)

/-- Models `_add_result_to_cache`: dict assignment, updating in place when the
key is present. -/
def cacheAdd : Cache → List PyObj → PyDict → Cache
  | [], k, v => [(k, v)]
  | p :: rest, k, v => if p.1 = k then (k, v) :: rest else p :: cacheAdd rest k v

/-- Models `GeoDatabase_Base.get_geodata` (lines 141-165) for positional
arguments (every call in the claims passes no keyword arguments): build the
normalized key, serve a cache hit without touching the backing store,
otherwise delegate to the subclass hook `backend` abstracting
`self._get_geodata(*args)`; a `None` outcome is returned without being
cached, only non-`None` results populate the cache, and an exception in the
hook propagates before any cache write.  Returns the outcome, the new cache
and whether the hook was invoked. -/
def get_geodata (backend : List PyObj → PyOut PyDict) (cache : Cache)
    (args : List PyObj) : PyOut PyDict × Cache × Bool :=
  let key := makeKey args []
  match cacheGet? cache key with
  | some v => (.val v, cache, false)
  | Option.none =>
    match backend args with
    | .val v => (.val v, cacheAdd cache key v, true)
    | .noneV => (.noneV, cache, true)
    | .exn e => (.exn e, cache, true)

/-- The `_get_geodata` hook of `ZIP_GeoIPDB` as invoked through `get_geodata`
with two positional arguments and default keyword arguments. -/
def ZIP_backend (types : List (String × PyType)) (t : Table) (ipl : List Int)
    (agg : List (PyVal × PyVal) → Rat × Rat) : List PyObj → PyOut PyDict
  | [column, value] => (ZIP_getGeodata types t ipl agg column value .and true).2
  | _ => .exn "TypeError"

/-- Column list of the sample sorted-range store used in the concrete
executions below (`to_sql` writes the pandas `index` column as well). -/
def sampleCols : List String :=
  ["index", "ip_from", "ip_to", "place_name", "latitude", "longitude"]

/-- Three contiguous inclusive ranges 1-10, 11-20, 21-30 labelled A, B, C. -/
def sampleRows : List (List Cell) :=
  [[.i 0, .i 1, .i 10, .s "A", .r 1, .r 2],
   [.i 1, .i 11, .i 20, .s "B", .r 3, .r 4],
   [.i 2, .i 21, .i 30, .s "C", .r 5, .r 6]]

/-- The sample sorted-range store. -/
def sampleTable : Table :=
  ⟨sampleCols, sampleRows⟩

/-- A one-row country-level store with the United States reference point. -/
def usTable : Table :=
  ⟨["index", "country_code", "country_name", "latitude", "longitude"],
   [[.i 0, .s "US", .s "UNITED STATES", .r 37, .r (-95)]]⟩

/-- A fixed aggregator instance for concrete executions (its value is never
reached on single-row results). -/
def aggZero : List (PyVal × PyVal) → Rat × Rat :=
  fun _ => (0, 0)

/-- Field of a lookup outcome when it carries a dict, for the concrete
executions below. -/
def outField (o : Bool × PyOut PyDict) (k : String) : Option PyVal :=
  match o.2 with
  | .val d => dictGet? d k
  | _ => Option.none

/-- Cell of the record a linear-scan oracle returned, for the concrete
executions below. -/
def scanField (cols : List String) (o : Option (List Cell)) (k : String) : Option Cell :=
  o.bind (fun r => cellAt cols r k)

/-- Boolean check that the cached `ip_to` array is aligned with the stored
table: equal lengths, and row `j` holds exactly the `j`-th upper bound in its
`ip_to` column. -/
def alignedB (t : Table) (ipl : List Int) : Bool :=
  decide (t.rows.length = ipl.length) &&
  (List.range ipl.length).all (fun j =>
    decide (cellAt t.cols (t.rows.getD j []) "ip_to" = some (.i (ipl.getD j 0))))

/-- The `na_values` spellings passed to `pd.read_csv` at line 111 of
`geodb.py`: these, and only these, become absent values during load. -/
def naValues : List String :=
  ["-1.#IND", "1.#QNAN", "1.#IND", "-1.#QNAN", "#N/A N/A", "#N/A", "N/A",
   "n/a", "#NA", "NULL", "null", "NaN", "-NaN", "nan", "-nan", ""]

/-- Models the dtype coercion the pandas loader
`pd.read_csv(..., names=..., dtype=self.types, keep_default_na=False,
na_values=[...])` (geodb.py line 111) applies to one raw CSV field: a listed
na-value spelling becomes NULL, a declared numeric column parses the text —
a parse failure raises `ValueError` — and a string column keeps the text. -/
def readCsvField (t : PyType) (s : String) : Except String Cell :=
  if s ∈ naValues then .ok Cell.null
  else
    match t with
    | .tFloat =>
      match parseFloat? s with
      | some q => .ok (.r q)
      | Option.none => .error "ValueError"
    | .tInt =>
      match parseInt? s with
      | some n => .ok (.i n)
      | Option.none => .error "ValueError"
    | .tStr => .ok (.s s)

/-- Loading one CSV row under the declared dtypes: pandas applies the dtype
to each column, and a field whose coercion raises aborts the whole load with
that error; a column without a declared dtype is kept as text. -/
def readCsvRow (types : List (String × PyType)) :
    List (String × String) → Except String (List (String × Cell))
  | [] => .ok []
  | (k, s) :: rest =>
    match readCsvField ((lookupType types k).getD PyType.tStr) s with
    | .error e => .error e
    | .ok c =>
      match readCsvRow types rest with
      | .error e => .error e
      | .ok cs => .ok ((k, c) :: cs)

lemma dictGet?_set_self (d : PyDict) (k : String) (v : PyVal) :
    dictGet? (dictSet d k v) k = some v := by
  induction d with
  | nil => simp [dictSet, dictGet?, List.find?]
  | cons p rest ih =>
    by_cases h : p.1 = k
    · simp [dictSet, h, dictGet?, List.find?]
    · simp only [dictSet, h, if_false]
      simpa [dictGet?, List.find?, h] using ih

lemma dictGet?_set_ne (d : PyDict) (k : String) (v : PyVal) (k' : String) (h : k' ≠ k) :
    dictGet? (dictSet d k v) k' = dictGet? d k' := by
  have hkk : ¬ k = k' := fun hh => h hh.symm
  induction d with
  | nil => simp [dictSet, dictGet?, List.find?, hkk]
  | cons p rest ih =>
    by_cases hp : p.1 = k
    · have hpk' : ¬ p.1 = k' := fun hh => h (hh ▸ hp)
      simp [dictSet, dictGet?, List.find?, hp, hpk', hkk]
    · by_cases hk' : p.1 = k'
      · simp [dictSet, dictGet?, List.find?, hp, hk', h]
      · simpa [dictSet, dictGet?, List.find?, hp, hk'] using ih

lemma dictGet?_del_ne (d : PyDict) (k k' : String) (h : k' ≠ k) :
    dictGet? (dictDel d k) k' = dictGet? d k' := by
  have hkk : ¬ k = k' := fun hh => h hh.symm
  induction d with
  | nil => simp [dictDel, dictGet?]
  | cons p rest ih =>
    by_cases hp : p.1 = k
    · have hpk' : ¬ p.1 = k' := fun hh => h (hh ▸ hp)
      simpa [dictDel, dictGet?, List.find?, List.filter, hp, hpk', hkk] using ih
    · by_cases hk' : p.1 = k'
      · simp [dictDel, dictGet?, List.find?, List.filter, hp, hk', h]
      · simpa [dictDel, dictGet?, List.find?, List.filter, hp, hk'] using ih

lemma dictHas_eq_isSome (d : PyDict) (k : String) :
    dictHas d k = (dictGet? d k).isSome := by
  induction d with
  | nil => simp [dictHas, dictGet?]
  | cons p rest ih =>
    by_cases hp : p.1 = k
    · simp [dictHas, dictGet?, List.find?, hp]
    · simpa [dictHas, dictGet?, List.find?, hp] using ih

lemma dictHas_del_self (d : PyDict) (k : String) :
    dictHas (dictDel d k) k = false := by
  induction d with
  | nil => simp [dictDel, dictHas]
  | cons p rest ih =>
    by_cases hp : p.1 = k
    · simp only [dictDel, List.filter, hp] at ih ⊢
      simpa using ih
    · simp only [dictDel, List.filter, hp] at ih ⊢
      simp only [dictHas, List.any_cons] at ih ⊢
      simp [hp, ih]

lemma dictHas_del_ne (d : PyDict) (k k' : String) (h : k' ≠ k) :
    dictHas (dictDel d k) k' = dictHas d k' := by
  rw [dictHas_eq_isSome, dictHas_eq_isSome, dictGet?_del_ne d k k' h]

lemma dictHas_set_self (d : PyDict) (k : String) (v : PyVal) :
    dictHas (dictSet d k v) k = true := by
  rw [dictHas_eq_isSome, dictGet?_set_self]
  rfl

lemma dictHas_set_ne (d : PyDict) (k : String) (v : PyVal) (k' : String) (h : k' ≠ k) :
    dictHas (dictSet d k v) k' = dictHas d k' := by
  rw [dictHas_eq_isSome, dictHas_eq_isSome, dictGet?_set_ne d k v k' h]

lemma getD_eq_getElem (a : List Int) (i : Nat) (h : i < a.length) :
    a.getD i 0 = a[i] := by
  simp [List.getD_eq_getElem?_getD, List.getElem?_eq_getElem h]

lemma pairwise_le_getD_mono (a : List Int) (h : a.Pairwise (· ≤ ·)) :
    ∀ i j, i ≤ j → j < a.length → a.getD i 0 ≤ a.getD j 0 := by
  intro i j hij hj
  rcases Nat.lt_or_ge i j with hlt | hge
  · rw [getD_eq_getElem a i (lt_trans hlt hj), getD_eq_getElem a j hj]
    exact List.pairwise_iff_getElem.mp h i j (lt_trans hlt hj) hj hlt
  · have : i = j := le_antisymm hij hge
    subst this
    exact le_refl _

/-- Main invariant of the binary search: the returned position splits the
sorted array into a left part of elements at most `v` and a right part of
elements strictly greater. -/
lemma bisectRightAux_spec (a : List Int) (v : Int)
    (hmono : ∀ i j, i ≤ j → j < a.length → a.getD i 0 ≤ a.getD j 0) :
    ∀ fuel lo hi, lo ≤ hi → hi ≤ a.length → hi - lo ≤ fuel →
      (∀ i, i < lo → a.getD i 0 ≤ v) →
      (∀ i, hi ≤ i → i < a.length → v < a.getD i 0) →
      lo ≤ bisectRightAux a v fuel lo hi ∧
      bisectRightAux a v fuel lo hi ≤ hi ∧
      (∀ i, i < bisectRightAux a v fuel lo hi → a.getD i 0 ≤ v) ∧
      (∀ i, bisectRightAux a v fuel lo hi ≤ i → i < a.length → v < a.getD i 0) := by
  intro fuel
  induction fuel with
  | zero =>
    intro lo hi hlohi hhile hfuel hlo hhi
    have heq : lo = hi := by omega
    subst heq
    exact ⟨le_refl _, le_refl _, hlo, fun i hri hil => hhi i hri hil⟩
  | succ fuel ih =>
    intro lo hi hlohi hhile hfuel hlo hhi
    simp only [bisectRightAux]
    by_cases hlt : lo < hi
    · rw [if_pos hlt]
      have hmlo : lo ≤ (lo + hi) / 2 := by omega
      have hmhi : (lo + hi) / 2 < hi := by omega
      by_cases hv : v < a.getD ((lo + hi) / 2) 0
      · rw [if_pos hv]
        obtain ⟨h1, h2, h3, h4⟩ := ih lo ((lo + hi) / 2) hmlo (by omega) (by omega) hlo
          (fun i hmi hil => lt_of_lt_of_le hv (hmono _ i hmi hil))
        exact ⟨h1, le_trans h2 (le_of_lt hmhi), h3, h4⟩
      · rw [if_neg hv]
        have hmv : a.getD ((lo + hi) / 2) 0 ≤ v := not_lt.mp hv
        obtain ⟨h1, h2, h3, h4⟩ := ih ((lo + hi) / 2 + 1) hi (by omega) hhile (by omega)
          (fun i hi1 => le_trans (hmono i _ (by omega) (by omega)) hmv) hhi
        exact ⟨le_trans (by omega) h1, h2, h3, h4⟩
    · rw [if_neg hlt]
      have heq : lo = hi := by omega
      exact ⟨le_refl _, le_of_eq heq, hlo, fun i hri hil => hhi i (heq ▸ hri) hil⟩

/-- The position returned by `bisect_right` on a sorted array: everything to
the left is at most `v`, everything from the position on is strictly greater. -/
lemma bisectRight_spec (a : List Int) (v : Int) (hs : a.Pairwise (· ≤ ·)) :
    bisectRight a v ≤ a.length ∧
    (∀ i, i < bisectRight a v → a.getD i 0 ≤ v) ∧
    (∀ i, bisectRight a v ≤ i → i < a.length → v < a.getD i 0) := by
  obtain ⟨_, h2, h3, h4⟩ := bisectRightAux_spec a v (pairwise_le_getD_mono a hs)
    a.length 0 a.length (Nat.zero_le _) (le_refl _) (by omega)
    (fun i hi => absurd hi (Nat.not_lt_zero i)) (fun i hi hil => absurd (lt_of_le_of_lt hi hil) (lt_irrefl _))
  exact ⟨h2, h3, h4⟩

/-- On a sorted array `bisect_right` computes exactly the linear-scan position
of the first element strictly greater than the query value. -/
lemma bisectRight_eq_findIdx (a : List Int) (v : Int) (hs : a.Pairwise (· ≤ ·)) :
    bisectRight a v = a.findIdx (fun x => decide (v < x)) := by
  obtain ⟨hle, hleft, hright⟩ := bisectRight_spec a v hs
  rcases Nat.lt_or_ge (bisectRight a v) a.length with hlt | hge
  · rw [eq_comm, List.findIdx_eq hlt]
    constructor
    · have := hright (bisectRight a v) (le_refl _) hlt
      rw [getD_eq_getElem a _ hlt] at this
      simpa using this
    · intro j hj
      have := hleft j hj
      rw [getD_eq_getElem a j (lt_trans hj hlt)] at this
      simpa using this
  · have hblen : bisectRight a v = a.length := le_antisymm hle hge
    rw [hblen]
    symm
    apply List.findIdx_eq_length_of_false
    intro x hx
    obtain ⟨i, hi, hxi⟩ := List.getElem_of_mem hx
    have := hleft i (by omega)
    rw [getD_eq_getElem a i hi, hxi] at this
    simpa using this

lemma find?_eq_of_first {α : Type} (l : List α) (p : α → Bool) (idx : Nat) (dflt : α)
    (hlt : idx < l.length) (hp : p (l.getD idx dflt) = true)
    (hbefore : ∀ j, j < idx → p (l.getD j dflt) = false) :
    l.find? p = some (l.getD idx dflt) := by
  induction l generalizing idx with
  | nil => simp at hlt
  | cons x xs ih =>
    cases idx with
    | zero =>
      simp only [List.getD_cons_zero] at hp
      simp [List.find?, hp]
    | succ n =>
      have hx : p x = false := by
        have := hbefore 0 (Nat.succ_pos n)
        simpa using this
      simp only [List.find?, hx]
      simp only [List.getD_cons_succ] at hp ⊢
      exact ih n (by simpa using hlt) hp
        (fun j hj => by simpa using hbefore (j + 1) (by omega))

lemma filter_eq_singleton_of {α : Type} (l : List α) (p : α → Bool) (idx : Nat) (dflt : α)
    (hlt : idx < l.length) (hp : p (l.getD idx dflt) = true)
    (hother : ∀ j, j < l.length → j ≠ idx → p (l.getD j dflt) = false) :
    l.filter p = [l.getD idx dflt] := by
  induction l generalizing idx with
  | nil => simp at hlt
  | cons x xs ih =>
    cases idx with
    | zero =>
      simp only [List.getD_cons_zero] at hp ⊢
      have hrest : xs.filter p = [] := by
        apply List.filter_eq_nil_iff.mpr
        intro a ha
        obtain ⟨j, hj, haj⟩ := List.getElem_of_mem ha
        have := hother (j + 1) (by simpa using Nat.succ_lt_succ hj) (by omega)
        simp only [List.getD_cons_succ] at this
        rw [List.getD_eq_getElem?_getD, List.getElem?_eq_getElem hj] at this
        simpa [haj] using this
      simp [List.filter, hp, hrest]
    | succ n =>
      have hx : p x = false := by
        have := hother 0 (Nat.succ_pos _) (by omega)
        simpa using this
      simp only [List.filter, hx]
      simp only [List.getD_cons_succ] at hp ⊢
      exact ih n (by simpa using hlt) hp
        (fun j hj hne => by
          have := hother (j + 1) (by simpa using Nat.succ_lt_succ hj) (by omega)
          simpa using this)

/-- A successful shared shaping step always carries `location` and
`representative_point`, and leaves membership of every other key as it was in
the first row's dict. -/
lemma shapeCore_ok_has (agg : List (PyVal × PyVal) → Rat × Rat) (d0 : PyDict)
    (rest : List PyDict) (d3 : PyDict) (h : shapeCore agg d0 rest = .ok d3) :
    dictHas d3 "location" = true ∧ dictHas d3 "representative_point" = true ∧
    (∀ k, k ≠ "location" → k ≠ "representative_point" → dictHas d3 k = dictHas d0 k) := by
  cases hlat : dictGet? d0 "latitude" with
  | none =>
    simp only [shapeCore, hlat] at h
    exact absurd h (by simp)
  | some lat =>
    cases hlon : dictGet? d0 "longitude" with
    | none =>
      simp only [shapeCore, hlat, hlon] at h
      exact absurd h (by simp)
    | some lon =>
      simp only [shapeCore, hlat, hlon] at h
      by_cases hrest : rest.isEmpty
      · rw [if_pos hrest] at h
        injection h with h
        subst h
        refine ⟨?_, ?_, ?_⟩
        · rw [dictHas_set_ne _ _ _ _ (by decide), dictHas_set_self]
        · rw [dictHas_set_self]
        · intro k h1 h2
          rw [dictHas_set_ne _ _ _ _ h2, dictHas_set_ne _ _ _ _ h1]
      · rw [if_neg hrest] at h
        cases hc : collectPoints (d0 :: rest) with
        | error e => rw [hc] at h; exact absurd h (by simp)
        | ok pts =>
          rw [hc] at h
          injection h with h2
          subst h2
          refine ⟨?_, ?_, ?_⟩
          · rw [dictHas_set_ne _ _ _ _ (by decide),
              dictHas_set_ne _ _ _ _ (by decide), dictHas_set_self]
          · rw [dictHas_set_self]
          · intro k h1 h2
            rw [dictHas_set_ne _ _ _ _ h2, dictHas_set_ne _ _ _ _ h2,
              dictHas_set_ne _ _ _ _ h1]

/-- Any dict returned by the country shaping carries the synthesized fields
and none of the internal ones. -/
lemma countryShape_val (agg : List (PyVal × PyVal) → Rat × Rat) (rs : List PyDict)
    (d : PyDict) (h : countryShape agg rs = .val d) :
    dictHas d "location" = true ∧ dictHas d "representative_point" = true ∧
    dictHas d "latitude" = false ∧ dictHas d "longitude" = false ∧
    dictHas d "index" = false := by
  cases rs with
  | nil => exact absurd h (by simp [countryShape])
  | cons d0 rest =>
    cases hsc : shapeCore agg d0 rest with
    | error e =>
      simp only [countryShape, hsc] at h
      exact absurd h (by simp)
    | ok d3 =>
      simp only [countryShape, hsc] at h
      injection h with h
      subst h
      obtain ⟨hloc, hrep, _⟩ := shapeCore_ok_has agg d0 rest d3 hsc
      by_cases hidx : dictHas (dictDel (dictDel d3 "latitude") "longitude") "index"
      · rw [if_pos hidx]
        refine ⟨?_, ?_, ?_, ?_, ?_⟩
        · rw [dictHas_del_ne _ _ _ (by decide), dictHas_del_ne _ _ _ (by decide),
            dictHas_del_ne _ _ _ (by decide)]
          exact hloc
        · rw [dictHas_del_ne _ _ _ (by decide), dictHas_del_ne _ _ _ (by decide),
            dictHas_del_ne _ _ _ (by decide)]
          exact hrep
        · rw [dictHas_del_ne _ _ _ (by decide), dictHas_del_ne _ _ _ (by decide),
            dictHas_del_self]
        · rw [dictHas_del_ne _ _ _ (by decide), dictHas_del_self]
        · rw [dictHas_del_self]
      · rw [if_neg hidx]
        refine ⟨?_, ?_, ?_, ?_, ?_⟩
        · rw [dictHas_del_ne _ _ _ (by decide), dictHas_del_ne _ _ _ (by decide)]
          exact hloc
        · rw [dictHas_del_ne _ _ _ (by decide), dictHas_del_ne _ _ _ (by decide)]
          exact hrep
        · rw [dictHas_del_ne _ _ _ (by decide), dictHas_del_self]
        · rw [dictHas_del_self]
        · exact Bool.not_eq_true _ ▸ eq_false_of_ne_true hidx

/-- Any dict returned by the ZIP shaping carries the synthesized fields and
none of the internal ones, including the raw range bounds. -/
lemma zipShape_val (agg : List (PyVal × PyVal) → Rat × Rat) (rs : List PyDict)
    (d : PyDict) (h : zipShape agg rs = .val d) :
    dictHas d "location" = true ∧ dictHas d "representative_point" = true ∧
    dictHas d "latitude" = false ∧ dictHas d "longitude" = false ∧
    dictHas d "ip_from" = false ∧ dictHas d "ip_to" = false ∧
    dictHas d "index" = false := by
  cases rs with
  | nil => exact absurd h (by simp [zipShape])
  | cons d0 rest =>
    cases hsc : shapeCore agg d0 rest with
    | error e =>
      simp only [zipShape, hsc] at h
      exact absurd h (by simp)
    | ok d3 =>
      simp only [zipShape, hsc] at h
      injection h with h
      subst h
      obtain ⟨hloc, hrep, _⟩ := shapeCore_ok_has agg d0 rest d3 hsc
      refine ⟨?_, ?_, ?_, ?_, ?_, ?_, ?_⟩
      · rw [dictHas_del_ne _ _ _ (by decide), dictHas_del_ne _ _ _ (by decide),
          dictHas_del_ne _ _ _ (by decide), dictHas_del_ne _ _ _ (by decide),
          dictHas_del_ne _ _ _ (by decide)]
        exact hloc
      · rw [dictHas_del_ne _ _ _ (by decide), dictHas_del_ne _ _ _ (by decide),
          dictHas_del_ne _ _ _ (by decide), dictHas_del_ne _ _ _ (by decide),
          dictHas_del_ne _ _ _ (by decide)]
        exact hrep
      · rw [dictHas_del_ne _ _ _ (by decide), dictHas_del_ne _ _ _ (by decide),
          dictHas_del_ne _ _ _ (by decide), dictHas_del_ne _ _ _ (by decide),
          dictHas_del_self]
      · rw [dictHas_del_ne _ _ _ (by decide), dictHas_del_ne _ _ _ (by decide),
          dictHas_del_ne _ _ _ (by decide), dictHas_del_self]
      · rw [dictHas_del_ne _ _ _ (by decide), dictHas_del_ne _ _ _ (by decide),
          dictHas_del_self]
      · rw [dictHas_del_ne _ _ _ (by decide), dictHas_del_self]
      · rw [dictHas_del_self]

/-- Every value-carrying outcome of the country lookup is a dict produced by
the country shaper. -/
lemma CountryLevel_getGeodata_val (types : List (String × PyType)) (t : Table)
    (pending : List (List Cell)) (agg : List (PyVal × PyVal) → Rat × Rat)
    (column value : PyObj) (mop : Combinator) (b : Bool) (d : PyDict)
    (h : CountryLevel_getGeodata types t pending agg column value mop = (b, .val d)) :
    ∃ rs, countryShape agg rs = .val d := by
  unfold CountryLevel_getGeodata at h
  cases column with
  | atom a =>
    cases a with
    | s c =>
      simp only at h
      by_cases hc : (t.cols.findIdx? (fun x => x = c)).isSome
      · rw [if_pos hc] at h
        unfold runQuery at h
        cases hf : fetchallDicts types t.cols
            (t.rows.filter (fun r => evalCond t.cols r c value)) with
        | ok ds =>
          rw [hf] at h
          exact ⟨ds, congrArg Prod.snd h⟩
        | error e => rw [hf] at h; exact absurd (congrArg Prod.snd h) (by simp)
      · rw [if_neg hc] at h
        exact absurd (congrArg Prod.snd h) (by simp)
    | i n =>
      simp only at h
      cases hf : fetchallDicts types t.cols pending with
      | ok ds => rw [hf] at h; exact ⟨ds, congrArg Prod.snd h⟩
      | error e => rw [hf] at h; exact absurd (congrArg Prod.snd h) (by simp)
  | list cs =>
    cases value with
    | atom a =>
      simp only at h
      cases hf : fetchallDicts types t.cols pending with
      | ok ds => rw [hf] at h; exact ⟨ds, congrArg Prod.snd h⟩
      | error e => rw [hf] at h; exact absurd (congrArg Prod.snd h) (by simp)
    | list vs =>
      simp only at h
      by_cases hl : cs.length = vs.length
      · rw [if_pos hl] at h
        by_cases he : cs.isEmpty
        · rw [if_pos he] at h
          exact absurd (congrArg Prod.snd h) (by simp)
        · rw [if_neg he] at h
          unfold runQuery at h
          cases hf : fetchallDicts types t.cols (t.rows.filter (fun r =>
              condsMatch mop t.cols r ((cs.zip vs).map
                (fun p => (pyAtomStr p.1, PyObj.atom p.2))))) with
          | ok ds => rw [hf] at h; exact ⟨ds, congrArg Prod.snd h⟩
          | error e => rw [hf] at h; exact absurd (congrArg Prod.snd h) (by simp)
      · rw [if_neg hl] at h
        cases hf : fetchallDicts types t.cols pending with
        | ok ds => rw [hf] at h; exact ⟨ds, congrArg Prod.snd h⟩
        | error e => rw [hf] at h; exact absurd (congrArg Prod.snd h) (by simp)
    | tup vs =>
      simp only at h
      cases hf : fetchallDicts types t.cols pending with
      | ok ds => rw [hf] at h; exact ⟨ds, congrArg Prod.snd h⟩
      | error e => rw [hf] at h; exact absurd (congrArg Prod.snd h) (by simp)
  | tup cs =>
    simp only at h
    cases hf : fetchallDicts types t.cols pending with
    | ok ds => rw [hf] at h; exact ⟨ds, congrArg Prod.snd h⟩
    | error e => rw [hf] at h; exact absurd (congrArg Prod.snd h) (by simp)

/-- Every value-carrying outcome of the ZIP lookup is a dict produced by the
ZIP shaper. -/
lemma ZIP_getGeodata_val (types : List (String × PyType)) (t : Table) (ipl : List Int)
    (agg : List (PyVal × PyVal) → Rat × Rat) (column value : PyObj)
    (mop : Combinator) (str_ip : Bool) (b : Bool) (d : PyDict)
    (h : ZIP_getGeodata types t ipl agg column value mop str_ip = (b, .val d)) :
    ∃ rs, zipShape agg rs = .val d := by
  unfold ZIP_getGeodata at h
  by_cases hip : column = PyObj.atom (.s "ip")
  · rw [if_pos hip] at h
    have hlook : ∀ (n : Int), zipIpLookup types t ipl agg n = (b, .val d) →
        ∃ rs, zipShape agg rs = .val d := by
      intro n hn
      cases hg : ipl[bisectRight ipl n]? with
      | none =>
        simp only [zipIpLookup, hg] at hn
        exact absurd (congrArg Prod.snd hn) (by simp)
      | some ipTo =>
        simp only [zipIpLookup, hg] at hn
        unfold zipFetchShape at hn
        cases hf : fetchallDicts types t.cols (t.rows.filter (fun r =>
            evalCond t.cols r "ip_to" (.atom (.i ipTo)))) with
        | ok ds => rw [hf] at hn; exact ⟨ds, congrArg Prod.snd hn⟩
        | error e => rw [hf] at hn; exact absurd (congrArg Prod.snd hn) (by simp)
    by_cases hs : str_ip
    · rw [if_pos hs] at h
      cases hcv : ip2int (pyObjStr value) with
      | error e => rw [hcv] at h; exact absurd (congrArg Prod.snd h) (by simp)
      | ok n => rw [hcv] at h; exact hlook n h
    · rw [if_neg hs] at h
      cases value with
      | atom a =>
        cases a with
        | s str => exact absurd (congrArg Prod.snd h) (by simp)
        | i n => exact hlook n h
      | list l => exact absurd (congrArg Prod.snd h) (by simp)
      | tup l => exact absurd (congrArg Prod.snd h) (by simp)
  · rw [if_neg hip] at h
    cases column with
    | atom a =>
      cases a with
      | s c =>
        simp only at h
        by_cases hc : (t.cols.findIdx? (fun x => x = c)).isSome
        · rw [if_pos hc] at h
          unfold runQuery at h
          cases hf : fetchallDicts types t.cols
              (t.rows.filter (fun r => evalCond t.cols r c value)) with
          | ok ds => rw [hf] at h; exact ⟨ds, congrArg Prod.snd h⟩
          | error e => rw [hf] at h; exact absurd (congrArg Prod.snd h) (by simp)
        · rw [if_neg hc] at h
          exact absurd (congrArg Prod.snd h) (by simp)
      | i n => exact absurd (congrArg Prod.snd h) (by simp)
    | list cs =>
      cases value with
      | atom a => exact absurd (congrArg Prod.snd h) (by simp)
      | list vs =>
        simp only at h
        by_cases hl : cs.length = vs.length
        · rw [if_pos hl] at h
          by_cases he : cs.isEmpty
          · rw [if_pos he] at h
            exact absurd (congrArg Prod.snd h) (by simp)
          · rw [if_neg he] at h
            unfold runQuery at h
            cases hf : fetchallDicts types t.cols (t.rows.filter (fun r =>
                condsMatch mop t.cols r ((cs.zip vs).map
                  (fun p => (pyAtomStr p.1, PyObj.atom p.2))))) with
            | ok ds => rw [hf] at h; exact ⟨ds, congrArg Prod.snd h⟩
            | error e => rw [hf] at h; exact absurd (congrArg Prod.snd h) (by simp)
        · rw [if_neg hl] at h
          exact absurd (congrArg Prod.snd h) (by simp)
      | tup vs => exact absurd (congrArg Prod.snd h) (by simp)
    | tup cs => exact absurd (congrArg Prod.snd h) (by simp)

lemma alignedB_spec (t : Table) (ipl : List Int) (h : alignedB t ipl = true) :
    t.rows.length = ipl.length ∧
    ∀ j, j < ipl.length →
      cellAt t.cols (t.rows.getD j []) "ip_to" = some (.i (ipl.getD j 0)) := by
  unfold alignedB at h
  rw [Bool.and_eq_true] at h
  obtain ⟨h1, h2⟩ := h
  refine ⟨of_decide_eq_true h1, ?_⟩
  intro j hj
  exact of_decide_eq_true (List.all_eq_true.mp h2 j (List.mem_range.mpr hj))

lemma pairwise_lt_getD (a : List Int) (h : a.Pairwise (· < ·)) :
    ∀ i j, i < j → j < a.length → a.getD i 0 < a.getD j 0 := by
  intro i j hij hj
  rw [getD_eq_getElem a i (lt_trans hij hj), getD_eq_getElem a j hj]
  exact List.pairwise_iff_getElem.mp h i j (lt_trans hij hj) hj hij

lemma dictHas_set_mono (d : PyDict) (k1 : String) (v : PyVal) (k2 : String)
    (h : dictHas d k2 = true) : dictHas (dictSet d k1 v) k2 = true := by
  by_cases he : k2 = k1
  · subst he
    exact dictHas_set_self d k2 v
  · rw [dictHas_set_ne d k1 v k2 he]
    exact h

/-- Induction core for the malformed-field claim: accumulating the row dict
never errors when every non-index column is typed, the failing key stays
absent, accumulated keys stay present, and every well-coerced field of the
row ends up present. -/
lemma dict_factory_aux (types : List (String × PyType)) (k : String) (t : PyType)
    (ht : lookupType types k = some t) :
    ∀ (pairs : List (String × Cell)) (d0 : PyDict),
      (∀ p ∈ pairs, p.1 ≠ "index" → (lookupType types p.1).isSome = true) →
      (∀ p ∈ pairs, p.1 = k → coerce t p.2 = Option.none) →
      dictGet? d0 k = Option.none →
      ∃ d, dict_factory types pairs d0 = .ok d ∧ dictGet? d k = Option.none ∧
        (∀ k2, dictHas d0 k2 = true → dictHas d k2 = true) ∧
        (∀ k2 c2, (k2, c2) ∈ pairs → k2 ≠ "index" →
          ∀ t2, lookupType types k2 = some t2 → (coerce t2 c2).isSome = true →
          dictHas d k2 = true) := by
  intro pairs
  induction pairs with
  | nil =>
    intro d0 _ _ habs
    exact ⟨d0, rfl, habs, fun _ h => h, fun k2 c2 hmem => absurd hmem (List.not_mem_nil _)⟩
  | cons p rest ih =>
    intro d0 htyped hfail habs
    obtain ⟨k1, c1⟩ := p
    by_cases hidx : k1 = "index"
    · subst hidx
      simp only [dict_factory, if_pos rfl]
      obtain ⟨d, hd, habs2, hmono, hmem⟩ := ih d0
        (fun q hq => htyped q (List.mem_cons_of_mem _ hq))
        (fun q hq hqk => hfail q (List.mem_cons_of_mem _ hq) hqk) habs
      refine ⟨d, hd, habs2, hmono, ?_⟩
      intro k2 c2 hmem2 hk2 t2 ht2 hc2
      rcases List.mem_cons.mp hmem2 with heq | hrest
      · exact absurd (congrArg Prod.fst heq) hk2
      · exact hmem k2 c2 hrest hk2 t2 ht2 hc2
    · have htk1 : (lookupType types k1).isSome = true :=
        htyped (k1, c1) (List.mem_cons_self _ _) hidx
      obtain ⟨t1, ht1⟩ := Option.isSome_iff_exists.mp htk1
      have hset : ∀ v1 : PyVal, coerce t1 c1 = some v1 →
          ∃ d, dict_factory types rest (dictSet d0 k1 v1) = .ok d ∧
            dictGet? d k = Option.none ∧
            (∀ k2, dictHas d0 k2 = true → dictHas d k2 = true) ∧
            (∀ k2 c2, (k2, c2) ∈ (k1, c1) :: rest → k2 ≠ "index" →
              ∀ t2, lookupType types k2 = some t2 → (coerce t2 c2).isSome = true →
              dictHas d k2 = true) := by
        intro v1 hsome
        have hk1k : k1 ≠ k := by
          intro hh
          subst hh
          rw [ht] at ht1
          injection ht1 with ht1
          subst ht1
          rw [hfail (k1, c1) (List.mem_cons_self _ _) rfl] at hsome
          exact Option.noConfusion hsome
        obtain ⟨d, hd, habs2, hmono, hmem⟩ := ih (dictSet d0 k1 v1)
          (fun q hq => htyped q (List.mem_cons_of_mem _ hq))
          (fun q hq hqk => hfail q (List.mem_cons_of_mem _ hq) hqk)
          (by rw [dictGet?_set_ne d0 k1 v1 k (fun hh => hk1k hh.symm)]; exact habs)
        refine ⟨d, hd, habs2,
          fun k2 hk2 => hmono k2 (dictHas_set_mono d0 k1 v1 k2 hk2), ?_⟩
        intro k2 c2 hmem2 hk2 t2 ht2 hc2
        rcases List.mem_cons.mp hmem2 with heq | hrest
        · have hk21 : k2 = k1 := congrArg Prod.fst heq
          subst hk21
          exact hmono k2 (dictHas_set_self d0 k2 v1)
        · exact hmem k2 c2 hrest hk2 t2 ht2 hc2
      have hskip : coerce t1 c1 = Option.none →
          ∃ d, dict_factory types rest d0 = .ok d ∧
            dictGet? d k = Option.none ∧
            (∀ k2, dictHas d0 k2 = true → dictHas d k2 = true) ∧
            (∀ k2 c2, (k2, c2) ∈ (k1, c1) :: rest → k2 ≠ "index" →
              ∀ t2, lookupType types k2 = some t2 → (coerce t2 c2).isSome = true →
              dictHas d k2 = true) := by
        intro hnone
        obtain ⟨d, hd, habs2, hmono, hmem⟩ := ih d0
          (fun q hq => htyped q (List.mem_cons_of_mem _ hq))
          (fun q hq hqk => hfail q (List.mem_cons_of_mem _ hq) hqk) habs
        refine ⟨d, hd, habs2, hmono, ?_⟩
        intro k2 c2 hmem2 hk2 t2 ht2 hc2
        rcases List.mem_cons.mp hmem2 with heq | hrest
        · have hk21 : k2 = k1 := congrArg Prod.fst heq
          have hc21 : c2 = c1 := congrArg Prod.snd heq
          subst hk21
          subst hc21
          rw [ht1] at ht2
          injection ht2 with ht2
          subst ht2
          rw [hnone] at hc2
          exact Bool.noConfusion hc2
        · exact hmem k2 c2 hrest hk2 t2 ht2 hc2
      cases t1 with
      | tStr =>
        simp only [dict_factory, if_neg hidx, ht1]
        exact hset (.s (cellStr c1)) rfl
      | tInt =>
        cases hco : coerce .tInt c1 with
        | some v1 =>
          simp only [dict_factory, if_neg hidx, ht1, hco]
          exact hset v1 hco
        | none =>
          simp only [dict_factory, if_neg hidx, ht1, hco]
          exact hskip hco
      | tFloat =>
        cases hco : coerce .tFloat c1 with
        | some v1 =>
          simp only [dict_factory, if_neg hidx, ht1, hco]
          exact hset v1 hco
        | none =>
          simp only [dict_factory, if_neg hidx, ht1, hco]
          exact hskip hco

/-- C1: the claim requires that a query value strictly greater than every
range upper bound yields absence, but `ZIP_GeoIPDB._get_geodata` indexes the
sorted `ip_to` array one position past the end: at the table with upper
bounds 10, 20, 30 the IP `0.0.0.31` (converted value 31) raises `IndexError`
instead of returning `None`. -/
theorem c1_value_above_all_bounds_raises :
    ZIP_getGeodata zipIPTypes sampleTable [10, 20, 30] aggZero
      (.atom (.s "ip")) (.atom (.s "0.0.0.31")) .and true = (false, .exn "IndexError") := by
  rfl

/-- C3 counterexample: after a lookup that matches zero rows the cache holds
no absence marker (it is still empty), and a second identical query invokes
the backing store again — contradicting the claim that the miss is cached
and the second query is served without touching the store. -/
theorem c3_counterexample_miss_not_cached :
    (get_geodata (fun _ => PyOut.noneV) []
        [PyObj.atom (.s "country_code"), PyObj.atom (.s "XX")]).2.1 = [] ∧
    (get_geodata (fun _ => PyOut.noneV)
        (get_geodata (fun _ => PyOut.noneV) []
          [PyObj.atom (.s "country_code"), PyObj.atom (.s "XX")]).2.1
        [PyObj.atom (.s "country_code"), PyObj.atom (.s "XX")]).2.2 = true := by
  exact ⟨rfl, rfl⟩

/-- C3 (amended): when the backing-store lookup matches zero rows,
`get_geodata` returns `None` without writing any cache entry, so a second
identical query misses the cache and invokes the backing store again. -/
theorem c3_absence_returned_uncached (backend : List PyObj → PyOut PyDict)
    (cache : Cache) (args : List PyObj)
    (hmiss : cacheGet? cache (makeKey args []) = Option.none)
    (hnone : backend args = PyOut.noneV) :
    get_geodata backend cache args = (PyOut.noneV, cache, true) ∧
    get_geodata backend (get_geodata backend cache args).2.1 args =
      (PyOut.noneV, cache, true) := by
  have h1 : get_geodata backend cache args = (PyOut.noneV, cache, true) := by
    simp only [get_geodata, hmiss, hnone]
  refine ⟨h1, ?_⟩
  rw [h1]
  exact h1

/-- Witness for the amended C3 theorem at a concrete empty cache and a
backend matching zero rows. -/
theorem c3_absence_returned_uncached_witness :
    cacheGet? []
      (makeKey [PyObj.atom (.s "country_code"), PyObj.atom (.s "XX")] []) =
        Option.none ∧
    ((fun _ => PyOut.noneV : List PyObj → PyOut PyDict)
      [PyObj.atom (.s "country_code"), PyObj.atom (.s "XX")] = PyOut.noneV) ∧
    (get_geodata (fun _ => PyOut.noneV) []
        [PyObj.atom (.s "country_code"), PyObj.atom (.s "XX")] =
      (PyOut.noneV, [], true) ∧
    get_geodata (fun _ => PyOut.noneV)
        (get_geodata (fun _ => PyOut.noneV) []
          [PyObj.atom (.s "country_code"), PyObj.atom (.s "XX")]).2.1
        [PyObj.atom (.s "country_code"), PyObj.atom (.s "XX")] =
      (PyOut.noneV, [], true)) :=
  ⟨rfl, rfl, c3_absence_returned_uncached (fun _ => PyOut.noneV) []
    [PyObj.atom (.s "country_code"), PyObj.atom (.s "XX")] rfl rfl⟩

/-- C4 counterexample: the single-field query key for
`('country_code', 'MX')` and the list-style key for
`(['country_code'], ['MX'])` are distinct, so the two styles do not share a
cache slot. -/
theorem c4_counterexample_styles_distinct_keys :
    makeKey [PyObj.atom (.s "country_code"), PyObj.atom (.s "MX")] [] ≠
    makeKey [PyObj.list [.s "country_code"], PyObj.list [.s "MX"]] [] := by
  decide

/-- C4 (amended): key normalization converts each list argument to a tuple
and leaves atoms unchanged, so the single-field style keeps key `(c, v)`
while the list style gets `((c,), (v,))` — two different Query Keys, hence
two different cache slots rather than one. -/
theorem c4_key_normalization_by_style (c v : String) :
    makeKey [PyObj.atom (.s c), PyObj.atom (.s v)] [] =
      [PyObj.atom (.s c), PyObj.atom (.s v)] ∧
    makeKey [PyObj.list [.s c], PyObj.list [.s v]] [] =
      [PyObj.tup [.s c], PyObj.tup [.s v]] ∧
    makeKey [PyObj.atom (.s c), PyObj.atom (.s v)] [] ≠
      makeKey [PyObj.list [.s c], PyObj.list [.s v]] [] := by
  refine ⟨rfl, rfl, fun h => ?_⟩
  simp [makeKey, normalizeArg] at h

/-- C5: a lookup called with column and value lists of different lengths
executes no statement against the backing store (the executed flag is
`false`) and returns `None` in every variant; the country variant merely
drains the already-consumed cursor. -/
theorem c5_mismatched_lengths_no_query (types : List (String × PyType)) (t : Table)
    (agg : List (PyVal × PyVal) → Rat × Rat) (cs vs : List PyAtom) (mop : Combinator)
    (names : List String) (engine : List FTSCond → Combinator → List (List Cell))
    (colsF : List String) (aggF : List (PyVal × PyVal) → Rat × Rat)
    (tz : Table) (ipl : List Int) (aggz : List (PyVal × PyVal) → Rat × Rat)
    (strip : Bool) (hlen : cs.length ≠ vs.length) :
    CountryLevel_getGeodata types t [] agg (.list cs) (.list vs) mop =
      (false, .noneV) ∧
    ZIPLevel_getGeodata types names engine colsF aggF (.list cs) (.list vs) mop =
      (false, .noneV) ∧
    ZIP_getGeodata types tz ipl aggz (.list cs) (.list vs) mop strip =
      (false, .noneV) := by
  refine ⟨?_, ?_, ?_⟩
  · simp only [CountryLevel_getGeodata, if_neg hlen]
    rfl
  · simp only [ZIPLevel_getGeodata, if_neg hlen]
  · simp only [ZIP_getGeodata,
      if_neg (fun hh : PyObj.list cs = PyObj.atom (.s "ip") => PyObj.noConfusion hh),
      if_neg hlen]

/-- Witness for the C5 theorem with a one-column, zero-value call. -/
theorem c5_mismatched_lengths_no_query_witness :
    ([PyAtom.s "country_code"] : List PyAtom).length ≠ ([] : List PyAtom).length ∧
    (CountryLevel_getGeodata countryTypes usTable [] aggZero
        (.list [.s "country_code"]) (.list []) .and = (false, .noneV) ∧
     ZIPLevel_getGeodata zipLevelTypes zipLevelNames (fun _ _ => []) [] aggZero
        (.list [.s "country_code"]) (.list []) .and = (false, .noneV) ∧
     ZIP_getGeodata zipIPTypes sampleTable [10, 20, 30] aggZero
        (.list [.s "country_code"]) (.list []) .and true = (false, .noneV)) :=
  ⟨by decide, c5_mismatched_lengths_no_query countryTypes usTable aggZero
    [PyAtom.s "country_code"] [] .and zipLevelNames (fun _ _ => []) [] aggZero
    sampleTable [10, 20, 30] aggZero true (by decide)⟩

/-- C6: when the storage engine lacks FTS5 support, constructing the
full-text variant halts with the capability error for every schema argument;
construction never succeeds, so the variant cannot silently degrade to
exact-match semantics. -/
theorem c6_missing_fts5_halts_construction (names : List String)
    (types : List (String × PyType)) :
    ZIPLevel_init false names types = .error .capabilityUnavailable := by
  rfl

/-- Read-back half of the malformed-field behavior: in `_dict_factory` a row
field whose value cannot be coerced to its declared type is dropped from the
produced record while the row factory still succeeds (the row is retained,
no exception escapes), and every field of the row whose coercion succeeds is
present in the record.  The load path does not share this tolerance — see
the claim theorem below. -/
theorem readback_malformed_field_dropped (types : List (String × PyType))
    (pairs : List (String × Cell)) (k : String) (t : PyType)
    (htyped : ∀ p ∈ pairs, p.1 ≠ "index" → (lookupType types p.1).isSome = true)
    (ht : lookupType types k = some t)
    (hfail : ∀ p ∈ pairs, p.1 = k → coerce t p.2 = Option.none) :
    ∃ d, dict_factory types pairs [] = .ok d ∧ dictGet? d k = Option.none ∧
      ∀ k2 c2, (k2, c2) ∈ pairs → k2 ≠ "index" →
        ∀ t2, lookupType types k2 = some t2 → (coerce t2 c2).isSome = true →
        dictHas d k2 = true := by
  obtain ⟨d, hd, habs, _, hmem⟩ := dict_factory_aux types k t ht pairs [] htyped hfail rfl
  exact ⟨d, hd, habs, hmem⟩

/-- Instance of the read-back tolerance at a concrete row whose `latitude`
column holds the non-numeric string `abc`. -/
theorem readback_malformed_field_dropped_instance :
    (∀ p ∈ ([("country_code", Cell.s "MX"), ("latitude", Cell.s "abc"),
        ("longitude", Cell.s "-100.5")] : List (String × Cell)),
      p.1 ≠ "index" → (lookupType countryTypes p.1).isSome = true) ∧
    lookupType countryTypes "latitude" = some PyType.tFloat ∧
    (∀ p ∈ ([("country_code", Cell.s "MX"), ("latitude", Cell.s "abc"),
        ("longitude", Cell.s "-100.5")] : List (String × Cell)),
      p.1 = "latitude" → coerce PyType.tFloat p.2 = Option.none) ∧
    (∃ d, dict_factory countryTypes
        [("country_code", Cell.s "MX"), ("latitude", Cell.s "abc"),
         ("longitude", Cell.s "-100.5")] [] = .ok d ∧
      dictGet? d "latitude" = Option.none ∧
      ∀ k2 c2, (k2, c2) ∈ ([("country_code", Cell.s "MX"), ("latitude", Cell.s "abc"),
          ("longitude", Cell.s "-100.5")] : List (String × Cell)) → k2 ≠ "index" →
        ∀ t2, lookupType countryTypes k2 = some t2 → (coerce t2 c2).isSome = true →
        dictHas d k2 = true) :=
  ⟨by decide, rfl, by decide,
   readback_malformed_field_dropped countryTypes
     [("country_code", Cell.s "MX"), ("latitude", Cell.s "abc"),
      ("longitude", Cell.s "-100.5")] "latitude" PyType.tFloat
     (by decide) rfl (by decide)⟩

/-- C7: the claim says a field value that cannot be coerced to its declared
numeric type becomes absent while the row is retained and never causes a
load failure — but on the load path of `_load_database` (geodb.py line 111)
`pd.read_csv` applies the declared dtypes and a non-numeric string in a
numeric column raises `ValueError`, aborting the whole load: at the row
`(MX, abc, -100.5)` with `abc` in the float column `latitude`, loading
fails, whereas the read-back row factory on the same malformed text keeps
the row with the well-coerced fields present and merely drops the field, as
the claim demands. -/
theorem c7_load_aborts_on_malformed_numeric :
    readCsvField PyType.tFloat "abc" = .error "ValueError" ∧
    readCsvRow countryTypes
      [("country_code", "MX"), ("latitude", "abc"), ("longitude", "-100.5")] =
        .error "ValueError" ∧
    (∃ d, dict_factory countryTypes
        [("country_code", Cell.s "MX"), ("latitude", Cell.s "abc"),
         ("longitude", Cell.s "-100.5")] [] = .ok d ∧
      dictGet? d "latitude" = Option.none ∧ dictHas d "country_code" = true ∧
      dictHas d "longitude" = true) := by
  refine ⟨rfl, rfl, ?_⟩
  obtain ⟨d, hd, habs, hmem⟩ := readback_malformed_field_dropped countryTypes
    [("country_code", Cell.s "MX"), ("latitude", Cell.s "abc"),
     ("longitude", Cell.s "-100.5")] "latitude" PyType.tFloat
    (by decide) rfl (by decide)
  exact ⟨d, hd, habs,
    hmem "country_code" (Cell.s "MX") (by decide) (by decide) PyType.tStr rfl
      (by decide),
    hmem "longitude" (Cell.s "-100.5") (by decide) (by decide) PyType.tFloat rfl
      (by decide)⟩

/-- C8: when the lookup matches exactly one row, result shaping — in the
exact-match variant and in the sorted-range variant alike — sets
`representative_point` equal to `location`, and both equal the coordinate
string of that single matched row. -/
theorem c8_single_match_location_eq_representative
    (aggc aggz : List (PyVal × PyVal) → Rat × Rat) (d0 : PyDict) (lat lon : PyVal)
    (hlat : dictGet? d0 "latitude" = some lat)
    (hlon : dictGet? d0 "longitude" = some lon) :
    (∃ d, countryShape aggc [d0] = PyOut.val d ∧
      dictGet? d "location" = some (.s (coordStr lat lon)) ∧
      dictGet? d "representative_point" = some (.s (coordStr lat lon))) ∧
    (∃ d, zipShape aggz [d0] = PyOut.val d ∧
      dictGet? d "location" = some (.s (coordStr lat lon)) ∧
      dictGet? d "representative_point" = some (.s (coordStr lat lon))) := by
  have hcore : ∀ agg : List (PyVal × PyVal) → Rat × Rat, shapeCore agg d0 [] =
      .ok (dictSet (dictSet d0 "location" (.s (coordStr lat lon)))
        "representative_point" (.s (coordStr lat lon))) := by
    intro agg
    simp [shapeCore, hlat, hlon]
  have hd4loc : dictGet? (dictDel (dictDel (dictSet (dictSet d0 "location"
      (.s (coordStr lat lon))) "representative_point" (.s (coordStr lat lon)))
      "latitude") "longitude") "location" = some (.s (coordStr lat lon)) := by
    rw [dictGet?_del_ne _ _ _ (by decide), dictGet?_del_ne _ _ _ (by decide),
      dictGet?_set_ne _ _ _ _ (by decide), dictGet?_set_self]
  have hd4rep : dictGet? (dictDel (dictDel (dictSet (dictSet d0 "location"
      (.s (coordStr lat lon))) "representative_point" (.s (coordStr lat lon)))
      "latitude") "longitude") "representative_point" =
        some (.s (coordStr lat lon)) := by
    rw [dictGet?_del_ne _ _ _ (by decide), dictGet?_del_ne _ _ _ (by decide),
      dictGet?_set_self]
  constructor
  · refine ⟨_, by simp only [countryShape, hcore aggc]; exact rfl, ?_, ?_⟩
    · by_cases hidx : dictHas (dictDel (dictDel (dictSet (dictSet d0 "location"
          (.s (coordStr lat lon))) "representative_point" (.s (coordStr lat lon)))
          "latitude") "longitude") "index"
      · rw [if_pos hidx, dictGet?_del_ne _ _ _ (by decide)]
        exact hd4loc
      · rw [if_neg hidx]
        exact hd4loc
    · by_cases hidx : dictHas (dictDel (dictDel (dictSet (dictSet d0 "location"
          (.s (coordStr lat lon))) "representative_point" (.s (coordStr lat lon)))
          "latitude") "longitude") "index"
      · rw [if_pos hidx, dictGet?_del_ne _ _ _ (by decide)]
        exact hd4rep
      · rw [if_neg hidx]
        exact hd4rep
  · refine ⟨_, by simp only [zipShape, hcore aggz]; exact rfl, ?_, ?_⟩
    · rw [dictGet?_del_ne _ _ _ (by decide), dictGet?_del_ne _ _ _ (by decide),
        dictGet?_del_ne _ _ _ (by decide)]
      exact hd4loc
    · rw [dictGet?_del_ne _ _ _ (by decide), dictGet?_del_ne _ _ _ (by decide),
        dictGet?_del_ne _ _ _ (by decide)]
      exact hd4rep

/-- Witness for C8 at the spec's reference point `(25.66667, -100.31667)`. -/
theorem c8_single_match_location_eq_representative_witness :
    dictGet? [("zip_code", PyVal.s "64830"), ("latitude", PyVal.f (25.66667 : Rat)),
        ("longitude", PyVal.f (-100.31667 : Rat))] "latitude" =
      some (PyVal.f (25.66667 : Rat)) ∧
    dictGet? [("zip_code", PyVal.s "64830"), ("latitude", PyVal.f (25.66667 : Rat)),
        ("longitude", PyVal.f (-100.31667 : Rat))] "longitude" =
      some (PyVal.f (-100.31667 : Rat)) ∧
    ((∃ d, countryShape aggZero [[("zip_code", PyVal.s "64830"),
        ("latitude", PyVal.f (25.66667 : Rat)),
        ("longitude", PyVal.f (-100.31667 : Rat))]] = PyOut.val d ∧
      dictGet? d "location" =
        some (.s (coordStr (PyVal.f (25.66667 : Rat)) (PyVal.f (-100.31667 : Rat)))) ∧
      dictGet? d "representative_point" =
        some (.s (coordStr (PyVal.f (25.66667 : Rat)) (PyVal.f (-100.31667 : Rat))))) ∧
    (∃ d, zipShape aggZero [[("zip_code", PyVal.s "64830"),
        ("latitude", PyVal.f (25.66667 : Rat)),
        ("longitude", PyVal.f (-100.31667 : Rat))]] = PyOut.val d ∧
      dictGet? d "location" =
        some (.s (coordStr (PyVal.f (25.66667 : Rat)) (PyVal.f (-100.31667 : Rat)))) ∧
      dictGet? d "representative_point" =
        some (.s (coordStr (PyVal.f (25.66667 : Rat)) (PyVal.f (-100.31667 : Rat)))))) :=
  ⟨rfl, rfl,
   c8_single_match_location_eq_representative aggZero aggZero
     [("zip_code", PyVal.s "64830"), ("latitude", PyVal.f (25.66667 : Rat)),
      ("longitude", PyVal.f (-100.31667 : Rat))]
     (PyVal.f (25.66667 : Rat)) (PyVal.f (-100.31667 : Rat)) rfl rfl⟩

/-- C9: every value-carrying result of the exact-match country resolver and
of the sorted-range resolver contains the synthesized `location` and
`representative_point` fields and none of the internal fields — the raw
coordinate columns and storage row identifiers, including the range bounds
for the sorted-range variant. -/
theorem c9_internal_fields_stripped (types : List (String × PyType)) (t : Table)
    (pending : List (List Cell)) (agg : List (PyVal × PyVal) → Rat × Rat)
    (column value : PyObj) (mop : Combinator) (b : Bool) (d : PyDict)
    (typesz : List (String × PyType)) (tz : Table) (ipl : List Int)
    (aggz : List (PyVal × PyVal) → Rat × Rat)
    (columnz valuez : PyObj) (mopz : Combinator) (strip bz : Bool) (dz : PyDict)
    (hc : CountryLevel_getGeodata types t pending agg column value mop = (b, .val d))
    (hz : ZIP_getGeodata typesz tz ipl aggz columnz valuez mopz strip = (bz, .val dz)) :
    (dictHas d "location" = true ∧ dictHas d "representative_point" = true ∧
     dictHas d "latitude" = false ∧ dictHas d "longitude" = false ∧
     dictHas d "index" = false) ∧
    (dictHas dz "location" = true ∧ dictHas dz "representative_point" = true ∧
     dictHas dz "latitude" = false ∧ dictHas dz "longitude" = false ∧
     dictHas dz "ip_from" = false ∧ dictHas dz "ip_to" = false ∧
     dictHas dz "index" = false) := by
  obtain ⟨rs, hrs⟩ :=
    CountryLevel_getGeodata_val types t pending agg column value mop b d hc
  obtain ⟨rsz, hrsz⟩ :=
    ZIP_getGeodata_val typesz tz ipl aggz columnz valuez mopz strip bz dz hz
  exact ⟨countryShape_val agg rs d hrs, zipShape_val aggz rsz dz hrsz⟩

/-- Witness for C9 on two concrete single-row lookups. -/
theorem c9_internal_fields_stripped_witness :
    CountryLevel_getGeodata countryTypes usTable [] aggZero
        (.atom (.s "country_code")) (.atom (.s "US")) .and =
      (true, .val [("country_code", PyVal.s "US"),
        ("country_name", PyVal.s "UNITED STATES"),
        ("location", PyVal.s "37,-95"), ("representative_point", PyVal.s "37,-95")]) ∧
    ZIP_getGeodata zipIPTypes sampleTable [10, 20, 30] aggZero
        (.atom (.s "place_name")) (.atom (.s "B")) .and true =
      (true, .val [("place_name", PyVal.s "B"), ("location", PyVal.s "3,4"),
        ("representative_point", PyVal.s "3,4")]) ∧
    ((dictHas [("country_code", PyVal.s "US"),
        ("country_name", PyVal.s "UNITED STATES"),
        ("location", PyVal.s "37,-95"), ("representative_point", PyVal.s "37,-95")]
        "location" = true ∧
      dictHas [("country_code", PyVal.s "US"),
        ("country_name", PyVal.s "UNITED STATES"),
        ("location", PyVal.s "37,-95"), ("representative_point", PyVal.s "37,-95")]
        "representative_point" = true ∧
      dictHas [("country_code", PyVal.s "US"),
        ("country_name", PyVal.s "UNITED STATES"),
        ("location", PyVal.s "37,-95"), ("representative_point", PyVal.s "37,-95")]
        "latitude" = false ∧
      dictHas [("country_code", PyVal.s "US"),
        ("country_name", PyVal.s "UNITED STATES"),
        ("location", PyVal.s "37,-95"), ("representative_point", PyVal.s "37,-95")]
        "longitude" = false ∧
      dictHas [("country_code", PyVal.s "US"),
        ("country_name", PyVal.s "UNITED STATES"),
        ("location", PyVal.s "37,-95"), ("representative_point", PyVal.s "37,-95")]
        "index" = false) ∧
     (dictHas [("place_name", PyVal.s "B"), ("location", PyVal.s "3,4"),
        ("representative_point", PyVal.s "3,4")] "location" = true ∧
      dictHas [("place_name", PyVal.s "B"), ("location", PyVal.s "3,4"),
        ("representative_point", PyVal.s "3,4")] "representative_point" = true ∧
      dictHas [("place_name", PyVal.s "B"), ("location", PyVal.s "3,4"),
        ("representative_point", PyVal.s "3,4")] "latitude" = false ∧
      dictHas [("place_name", PyVal.s "B"), ("location", PyVal.s "3,4"),
        ("representative_point", PyVal.s "3,4")] "longitude" = false ∧
      dictHas [("place_name", PyVal.s "B"), ("location", PyVal.s "3,4"),
        ("representative_point", PyVal.s "3,4")] "ip_from" = false ∧
      dictHas [("place_name", PyVal.s "B"), ("location", PyVal.s "3,4"),
        ("representative_point", PyVal.s "3,4")] "ip_to" = false ∧
      dictHas [("place_name", PyVal.s "B"), ("location", PyVal.s "3,4"),
        ("representative_point", PyVal.s "3,4")] "index" = false)) :=
  ⟨rfl, rfl,
   c9_internal_fields_stripped countryTypes usTable [] aggZero
     (.atom (.s "country_code")) (.atom (.s "US")) .and true
     [("country_code", PyVal.s "US"), ("country_name", PyVal.s "UNITED STATES"),
      ("location", PyVal.s "37,-95"), ("representative_point", PyVal.s "37,-95")]
     zipIPTypes sampleTable [10, 20, 30] aggZero (.atom (.s "place_name")) (.atom (.s "B"))
     .and true true
     [("place_name", PyVal.s "B"), ("location", PyVal.s "3,4"),
      ("representative_point", PyVal.s "3,4")] rfl rfl⟩

/-- C10: with column `'ip'` and `str_ip` set, a value whose integer
conversion raises is answered by `get_geodata` with `None` — the exception is
absorbed inside `_get_geodata` — and the result cache is left untouched (no
entry is added for the query). -/
theorem c10_invalid_ip_returns_none_uncached (types : List (String × PyType))
    (t : Table) (ipl : List Int) (agg : List (PyVal × PyVal) → Rat × Rat)
    (cache : Cache) (v : PyObj) (e : String)
    (hbad : ip2int (pyObjStr v) = .error e)
    (hmiss : cacheGet? cache (makeKey [PyObj.atom (.s "ip"), v] []) = Option.none) :
    get_geodata (ZIP_backend types t ipl agg) cache [PyObj.atom (.s "ip"), v] =
      (PyOut.noneV, cache, true) := by
  have hb : ZIP_backend types t ipl agg [PyObj.atom (.s "ip"), v] = PyOut.noneV := by
    show (ZIP_getGeodata types t ipl agg (.atom (.s "ip")) v .and true).2 = PyOut.noneV
    unfold ZIP_getGeodata
    rw [if_pos rfl, if_pos rfl, hbad]
  simp only [get_geodata, hmiss, hb]

/-- Witness for C10 at a value with no dotted-quad form and an empty cache. -/
theorem c10_invalid_ip_returns_none_uncached_witness :
    ip2int (pyObjStr (PyObj.atom (.s "not-an-ip"))) = .error "ValueError" ∧
    cacheGet? []
      (makeKey [PyObj.atom (.s "ip"), PyObj.atom (.s "not-an-ip")] []) =
        Option.none ∧
    get_geodata (ZIP_backend zipIPTypes sampleTable [10, 20, 30] aggZero) []
      [PyObj.atom (.s "ip"), PyObj.atom (.s "not-an-ip")] =
        (PyOut.noneV, [], true) :=
  ⟨rfl, rfl,
   c10_invalid_ip_returns_none_uncached zipIPTypes sampleTable [10, 20, 30]
     aggZero [] (PyObj.atom (.s "not-an-ip")) "ValueError" rfl rfl⟩

/-- C2 counterexample: at the boundary value 20 — exactly equal to the second
range's upper bound — the lookup resolves to the third record (place C), not
to the record whose upper bound is 20 (place B); the inclusive linear scan of
the ranges and the record with `ip_to = 20` both give place B. -/
theorem c2_counterexample_boundary_value :
    outField (ZIP_getGeodata zipIPTypes sampleTable [10, 20, 30] aggZero
      (.atom (.s "ip")) (.atom (.i 20)) .and false) "place_name" =
        some (PyVal.s "C") ∧
    scanField sampleCols (linearScanInclusive sampleTable 20) "place_name" =
      some (Cell.s "B") ∧
    scanField sampleCols
      (sampleTable.rows.find? (fun r =>
        decide (rowIpTo sampleTable.cols r = some 20))) "place_name" =
      some (Cell.s "B") := by
  exact ⟨rfl, rfl, rfl⟩

/-- C2 (amended): for every query value strictly below some range upper
bound, with a strictly ascending `ip_to` array aligned to the table, the
binary search returns the position of the first upper bound strictly greater
than the value — so a value exactly equal to an upper bound resolves to the
range above it, never to the range whose upper bound it equals — the SQL
fetch selects exactly the aligned record, which is the same record the
linear scan for the first upper bound strictly greater than the value finds,
and the lookup result is that record's shaped row. -/
theorem c2_bisect_matches_strict_scan (types : List (String × PyType)) (t : Table)
    (ipl : List Int) (agg : List (PyVal × PyVal) → Rat × Rat) (v : Int)
    (mop : Combinator)
    (hsorted : ipl.Pairwise (· < ·)) (halign : alignedB t ipl = true)
    (hin : ∃ x ∈ ipl, v < x) :
    bisectRight ipl v = ipl.findIdx (fun x => decide (v < x)) ∧
    bisectRight ipl v < ipl.length ∧
    linearScanStrictGt t v = some (t.rows.getD (bisectRight ipl v) []) ∧
    ZIP_getGeodata types t ipl agg (.atom (.s "ip")) (.atom (.i v)) mop false =
      (true, zipFetchShape types t.cols agg
        [t.rows.getD (bisectRight ipl v) []]) := by
  have hle : ipl.Pairwise (· ≤ ·) := hsorted.imp (fun h => le_of_lt h)
  obtain ⟨hlen, halignAt⟩ := alignedB_spec t ipl halign
  obtain ⟨hble, hleft, hright⟩ := bisectRight_spec ipl v hle
  have hfind := bisectRight_eq_findIdx ipl v hle
  have hlt : bisectRight ipl v < ipl.length := by
    rw [hfind]
    apply List.findIdx_lt_length.mpr
    obtain ⟨x, hx, hvx⟩ := hin
    exact ⟨x, hx, by simpa using hvx⟩
  have hrowlt : bisectRight ipl v < t.rows.length := by
    rw [hlen]
    exact hlt
  have hrowIpTo : ∀ j, j < ipl.length →
      rowIpTo t.cols (t.rows.getD j []) = some (ipl.getD j 0) := by
    intro j hj
    unfold rowIpTo
    rw [halignAt j hj]
  have hpidx : ((rowIpTo t.cols (t.rows.getD (bisectRight ipl v) [])).map
      (fun n => decide (v < n))).getD false = true := by
    rw [hrowIpTo _ hlt]
    simpa using hright (bisectRight ipl v) (le_refl _) hlt
  have hpbefore : ∀ j, j < bisectRight ipl v →
      ((rowIpTo t.cols (t.rows.getD j [])).map
        (fun n => decide (v < n))).getD false = false := by
    intro j hj
    rw [hrowIpTo j (lt_trans hj hlt)]
    simpa using not_lt.mpr (hleft j hj)
  have hscan : linearScanStrictGt t v =
      some (t.rows.getD (bisectRight ipl v) []) := by
    unfold linearScanStrictGt
    exact find?_eq_of_first t.rows _ (bisectRight ipl v) [] hrowlt hpidx hpbefore
  have hmatch : ∀ j, j < ipl.length →
      evalCond t.cols (t.rows.getD j []) "ip_to"
        (.atom (.i (ipl.getD (bisectRight ipl v) 0))) =
      decide (ipl.getD j 0 = ipl.getD (bisectRight ipl v) 0) := by
    intro j hj
    unfold evalCond
    rw [halignAt j hj]
    rfl
  have hfilter : t.rows.filter (fun r => evalCond t.cols r "ip_to"
      (.atom (.i (ipl.getD (bisectRight ipl v) 0)))) =
      [t.rows.getD (bisectRight ipl v) []] := by
    apply filter_eq_singleton_of t.rows _ (bisectRight ipl v) [] hrowlt
    · rw [hmatch _ hlt]
      simp
    · intro j hj hne
      rw [hmatch j (hlen ▸ hj)]
      rcases Nat.lt_or_ge j (bisectRight ipl v) with hlt2 | hge2
      · simpa using ne_of_lt (pairwise_lt_getD ipl hsorted j _ hlt2 hlt)
      · have hgt : bisectRight ipl v < j := lt_of_le_of_ne hge2 (Ne.symm hne)
        simpa using
          (ne_of_lt (pairwise_lt_getD ipl hsorted _ j hgt (hlen ▸ hj))).symm
  have hget : ipl[bisectRight ipl v]? = some (ipl.getD (bisectRight ipl v) 0) := by
    rw [List.getElem?_eq_getElem hlt, getD_eq_getElem ipl _ hlt]
  have hzl : zipIpLookup types t ipl agg v =
      (true, zipFetchShape types t.cols agg
        [t.rows.getD (bisectRight ipl v) []]) := by
    simp only [zipIpLookup, hget]
    rw [hfilter]
  refine ⟨hfind, hlt, hscan, ?_⟩
  unfold ZIP_getGeodata
  rw [if_pos rfl, if_neg (fun hh : (false : Bool) = true => Bool.noConfusion hh)]
  exact hzl

/-- Witness for the amended C2 theorem at the sample table and query value
15, which falls inside the second range. -/
theorem c2_bisect_matches_strict_scan_witness :
    List.Pairwise (· < ·) ([10, 20, 30] : List Int) ∧
    alignedB sampleTable [10, 20, 30] = true ∧
    (∃ x ∈ ([10, 20, 30] : List Int), (15 : Int) < x) ∧
    (bisectRight [10, 20, 30] 15 =
      List.findIdx (fun x => decide ((15 : Int) < x)) [10, 20, 30] ∧
     bisectRight [10, 20, 30] 15 < ([10, 20, 30] : List Int).length ∧
     linearScanStrictGt sampleTable 15 =
       some (sampleTable.rows.getD (bisectRight [10, 20, 30] 15) []) ∧
     ZIP_getGeodata zipIPTypes sampleTable [10, 20, 30] aggZero
        (.atom (.s "ip")) (.atom (.i 15)) .and false =
       (true, zipFetchShape zipIPTypes sampleTable.cols aggZero
         [sampleTable.rows.getD (bisectRight [10, 20, 30] 15) []])) :=
  ⟨by decide, by decide, by decide,
   c2_bisect_matches_strict_scan zipIPTypes sampleTable [10, 20, 30] aggZero 15
     .and (by decide) (by decide) (by decide)⟩

end GeoDB
